import Mathlib

/-! SeaweedFS `wdclient.MasterClient`

A shallow embedding of `weed/wdclient/masterclient.go`: the handshake and receive
loop of `tryConnectToMaster`, the supervisor pass `tryAllMasters`, and the
read-through lookup `LookupFileIdWithFallback`.

The network is an explicit input.  One connection attempt is driven by a `Session`
script (what dialing, opening the stream, sending, and the successive `stream.Recv`
calls yield).  A script is a finite observation: when its `recvs` are used up the
call is still blocked inside `stream.Recv`, which the results report as
`returned = false`.  Metrics counters and log lines are left out; they never feed
back into the client state.
-/

namespace Wdclient

/-! ## Data model -/

/-- The Go type `pb.ServerAddress` is a string. -/
abbrev ServerAddress := String

/-- Go `error` values, represented by their message. -/
abbrev Error := String

/-- The conversion `uint32(x)` of Go. -/
def uint32 (x : Nat) : Nat := x % 2 ^ 32

/-- The struct `Location`, with the four fields the client fills in
(masterclient.go lines 59-63 and 199-204).  `GrpcPort` is filled with `int(...)` of an
unsigned field, which keeps the value. -/
structure Location where
  Url : String
  PublicUrl : String
  DataCenter : String
  GrpcPort : Nat
  deriving DecidableEq, Repr

/-- Modelled from the spec: the routing table `vidMap`, whose declaration (vid_map.go)
is not among the sources.  Spec section 3: a mapping from volume id to a set of
`Location`, a parallel mapping for erasure-coded volume ids, and a
preferred-data-center string used only for result ordering.  A set is kept as a
duplicate-free list in insertion order. -/
structure VidMap where
  vid2Locations : Nat → List Location
  ecVid2Locations : Nat → List Location
  DataCenter : String

/-- Modelled from the spec: `newVidMap(dataCenter)`; the table is created empty and
carries the preferred-data-center hint (spec sections 3 and 4.4). -/
def newVidMap (dataCenter : String) : VidMap :=
  { vid2Locations := fun _ => [], ecVid2Locations := fun _ => [], DataCenter := dataCenter }

/-- Modelled from the spec: adding a pairing to a location set; adding an
already-present pairing is a no-op (spec section 4.3). -/
def insertLocation (locs : List Location) (loc : Location) : List Location :=
  if loc ∈ locs then locs else locs ++ [loc]

/-- Modelled from the spec: removing a pairing from a location set; removing an absent
pairing is a no-op (spec section 4.3). -/
def removeLocation (locs : List Location) (loc : Location) : List Location :=
  locs.filter (fun l => decide (l ≠ loc))

/-- Modelled from the spec: `vidMap.addLocation(vid, location)` mutates the regular set
of that id (spec section 4.4). -/
def VidMap.addLocation (vm : VidMap) (vid : Nat) (loc : Location) : VidMap :=
  { vm with vid2Locations := fun v =>
      if v = vid then insertLocation (vm.vid2Locations vid) loc else vm.vid2Locations v }

/-- Modelled from the spec: `vidMap.deleteLocation(vid, location)` (spec section 4.4). -/
def VidMap.deleteLocation (vm : VidMap) (vid : Nat) (loc : Location) : VidMap :=
  { vm with vid2Locations := fun v =>
      if v = vid then removeLocation (vm.vid2Locations vid) loc else vm.vid2Locations v }

/-- Modelled from the spec: `vidMap.addEcLocation(vid, location)` mutates the
erasure-coded set of that id (spec section 4.4). -/
def VidMap.addEcLocation (vm : VidMap) (vid : Nat) (loc : Location) : VidMap :=
  { vm with ecVid2Locations := fun v =>
      if v = vid then insertLocation (vm.ecVid2Locations vid) loc else vm.ecVid2Locations v }

/-- Modelled from the spec: `vidMap.deleteEcLocation(vid, location)` (spec section 4.4). -/
def VidMap.deleteEcLocation (vm : VidMap) (vid : Nat) (loc : Location) : VidMap :=
  { vm with ecVid2Locations := fun v =>
      if v = vid then removeLocation (vm.ecVid2Locations vid) loc else vm.ecVid2Locations v }

/-- Modelled from the spec: all locations known for a volume id, gathered across both
maps (spec section 4.4). -/
def VidMap.GetLocations (vm : VidMap) (vid : Nat) : List Location :=
  vm.vid2Locations vid ++ vm.ecVid2Locations vid

/-- Modelled from the spec: the volume id embedded in a file id.  The spec only shows
the shape by example (file id `7,abc` names volume 7): the decimal number in front of
the first comma. -/
def parseVolumeId (fileId : String) : Option Nat :=
  let digits := fileId.toList.takeWhile (fun c => c != ',')
  if digits.isEmpty || !digits.all Char.isDigit then none
  else some (digits.foldl (fun n c => 10 * n + (c.toNat - 48)) 0)

/-- Modelled from the spec: result ordering of a lookup, same-data-center locations
first, stable otherwise; an empty hint means no preference (spec section 4.4). -/
def VidMap.orderLocations (vm : VidMap) (locs : List Location) : List Location :=
  locs.filter (fun l => decide (vm.DataCenter ≠ "" ∧ l.DataCenter = vm.DataCenter)) ++
  locs.filter (fun l => !decide (vm.DataCenter ≠ "" ∧ l.DataCenter = vm.DataCenter))

/-- The derived URL of a file on a volume server (masterclient.go line 65,
spec section 6). -/
def fileUrl (url : String) (fileId : String) : String :=
  "http://" ++ url ++ "/" ++ fileId

/-- Modelled from the spec: `vidMap.LookupFileId(fileId)`; `none` is the NotFound
failure, returned when the id has no known locations (spec section 4.4). -/
def VidMap.LookupFileId (vm : VidMap) (fileId : String) : Option (List String) :=
  match parseVolumeId fileId with
  | none => none
  | some vid =>
    let locs := vm.GetLocations vid
    if locs.isEmpty then none
    else some ((vm.orderLocations locs).map (fun l => fileUrl l.Url fileId))

/-- The payload `master_pb.VolumeLocation`, with the fields the client reads
(masterclient.go lines 171 and 191-219). -/
structure VolumeLocation where
  Url : String
  PublicUrl : String
  DataCenter : String
  GrpcPort : Nat
  Leader : String
  NewVids : List Nat
  DeletedVids : List Nat
  NewEcVids : List Nat
  DeletedEcVids : List Nat
  deriving DecidableEq, Repr

/-- The payload `master_pb.ClusterNodeUpdate` (masterclient.go lines 224-233). -/
structure ClusterNodeUpdate where
  FilerGroup : String
  NodeType : String
  Address : String
  IsAdd : Bool
  IsLeader : Bool
  deriving DecidableEq, Repr

/-- One message of the stream, `master_pb.KeepConnectedResponse`: both payloads are
optional (nil pointers in Go). -/
structure KeepConnectedResponse where
  volumeLocation : Option VolumeLocation
  clusterNodeUpdate : Option ClusterNodeUpdate
  deriving DecidableEq, Repr

/-- The struct `MasterClient` (lines 17-28).  `masters` lists the entries of the Go map
in the order in which `range` yields them; `OnPeerUpdate` tells whether a callback is
registered and `notified` collects the updates handed to it.  The dial option is
left out: it is only passed through to the transport. -/
structure MasterClient where
  FilerGroup : String
  clientType : String
  clientHost : ServerAddress
  currentMaster : ServerAddress
  masters : List (String × ServerAddress)
  vidMap : VidMap
  OnPeerUpdate : Bool
  notified : List ClusterNodeUpdate

/-- The constructor `NewMasterClient` (lines 30-39): `currentMaster` and `OnPeerUpdate`
keep their zero values. -/
def NewMasterClient (filerGroup clientType : String) (clientHost : ServerAddress)
    (clientDataCenter : String) (masters : List (String × ServerAddress)) : MasterClient :=
  { FilerGroup := filerGroup
    clientType := clientType
    clientHost := clientHost
    currentMaster := ""
    masters := masters
    vidMap := newVidMap clientDataCenter
    OnPeerUpdate := false
    notified := [] }

/-! ## `tryConnectToMaster` -/

/-- What the network does during one call of `tryConnectToMaster`: the outcome of
dialing (`pb.WithMasterClient`), of `client.KeepConnected`, of `stream.Send`, and of
the successive `stream.Recv` calls. -/
structure Session where
  dial : Option Error
  keepConnected : Option Error
  send : Option Error
  recvs : List (Except Error KeepConnectedResponse)

/-- The outcome of `tryConnectToMaster`: the client afterwards, the named result
`nextHintedLeader`, the error `gprcErr`, whether the call has returned (otherwise it
is blocked in `stream.Recv`), whether lines 178-179 were executed, and the part of
the script that was never received. -/
structure ConnectResult where
  mc : MasterClient
  nextHintedLeader : ServerAddress
  gprcErr : Option Error
  returned : Bool
  committed : Bool
  unread : List (Except Error KeepConnectedResponse)

/-- Lines 198-220: the four delta loops of one message, all with the single location
built from the message. -/
def applyVolumeLocation (vm : VidMap) (vl : VolumeLocation) : VidMap :=
  let loc : Location :=
    { Url := vl.Url, PublicUrl := vl.PublicUrl, DataCenter := vl.DataCenter,
      GrpcPort := vl.GrpcPort }
  let vm1 := vl.NewVids.foldl (fun m newVid => m.addLocation newVid loc) vm
  let vm2 := vl.DeletedVids.foldl (fun m deletedVid => m.deleteLocation deletedVid loc) vm1
  let vm3 := vl.NewEcVids.foldl (fun m newEcVid => m.addEcLocation newEcVid loc) vm2
  vl.DeletedEcVids.foldl (fun m deletedEcVid => m.deleteEcLocation deletedEcVid loc) vm3

/-- Lines 223-236: a peer update is handed to the callback when one is registered and
the filer group matches. -/
def notifyPeerUpdate (mc : MasterClient) (resp : KeepConnectedResponse) : MasterClient :=
  match resp.clusterNodeUpdate with
  | none => mc
  | some update =>
    if mc.OnPeerUpdate && decide (update.FilerGroup = mc.FilerGroup) then
      { mc with notified := mc.notified ++ [update] }
    else mc

/-- Whether a message received in the loop is a redirect (lines 189-191). -/
def midStreamRedirect (mc : MasterClient) (resp : KeepConnectedResponse) : Option ServerAddress :=
  match resp.volumeLocation with
  | none => none
  | some vl =>
    if vl.Leader ≠ "" ∧ mc.currentMaster ≠ vl.Leader then some vl.Leader else none

/-- Lines 189-236 for a message that is not a redirect: the deltas, then the peer
update. -/
def processResponse (mc : MasterClient) (resp : KeepConnectedResponse) : MasterClient :=
  match resp.volumeLocation with
  | none => notifyPeerUpdate mc resp
  | some vl => notifyPeerUpdate { mc with vidMap := applyVolumeLocation mc.vidMap vl } resp

/-- The receive loop, lines 181-238. -/
def receiveLoop (mc : MasterClient) : List (Except Error KeepConnectedResponse) → ConnectResult
  | [] =>
    { mc := mc, nextHintedLeader := "", gprcErr := none, returned := false,
      committed := true, unread := [] }
  | Except.error err :: rest =>
    { mc := mc, nextHintedLeader := "", gprcErr := some err, returned := true,
      committed := true, unread := rest }
  | Except.ok resp :: rest =>
    match midStreamRedirect mc resp with
    | some leader =>
      { mc := mc, nextHintedLeader := leader, gprcErr := none, returned := true,
        committed := true, unread := rest }
    | none => receiveLoop (processResponse mc resp) rest

/-- Whether the first response redirects to another leader (line 171). -/
def handshakeRedirect (master : ServerAddress) (resp : KeepConnectedResponse) :
    Option ServerAddress :=
  match resp.volumeLocation with
  | none => none
  | some vl => if vl.Leader ≠ "" ∧ master ≠ vl.Leader then some vl.Leader else none

/-- The state committed by a handshake that was not redirected (lines 178-179). -/
def commitSession (mc : MasterClient) (master : ServerAddress) : MasterClient :=
  { mc with currentMaster := master, vidMap := newVidMap "" }

/-- The method `tryConnectToMaster` (lines 137-246). -/
def tryConnectToMaster (mc : MasterClient) (master : ServerAddress) (s : Session) :
    ConnectResult :=
  let failed (err : Error) (unread : List (Except Error KeepConnectedResponse)) : ConnectResult :=
    { mc := mc, nextHintedLeader := "", gprcErr := some err, returned := true,
      committed := false, unread := unread }
  match s.dial with
  | some err => failed err s.recvs
  | none =>
    match s.keepConnected with
    | some err => failed err s.recvs
    | none =>
      match s.send with
      | some err => failed err s.recvs
      | none =>
        match s.recvs with
        | [] =>
          { mc := mc, nextHintedLeader := "", gprcErr := none, returned := false,
            committed := false, unread := [] }
        | Except.error err :: rest => failed err rest
        | Except.ok resp :: rest =>
          match handshakeRedirect master resp with
          | some leader =>
            { mc := mc, nextHintedLeader := leader, gprcErr := none, returned := true,
              committed := false, unread := rest }
          | none => receiveLoop (commitSession mc master) rest

/-! ## `LookupFileIdWithFallback` -/

/-- A location of the lookup response, `master_pb.Location`, with the fields the
client reads (masterclient.go lines 60-62). -/
structure RpcLocation where
  Url : String
  PublicUrl : String
  GrpcPort : Nat
  deriving DecidableEq, Repr

/-- Modelled from the spec: the response of the unary lookup, whose declaration
(`master_pb.LookupVolumeResponse`) is not among the sources.  Spec section 6: a
mapping of id to list of locations.  `VolumeIdLocations` lists the pairs of key and
`Locations` in the order in which `range` yields them (line 57). -/
structure LookupVolumeResponse where
  VolumeIdLocations : List (Nat × List RpcLocation)
  deriving DecidableEq, Repr

/-- What the network does for a unary call: whether `pb.WithMasterClient` reaches the
given master, and what `client.LookupVolume` answers there for the requested ids. -/
structure MasterRpc where
  dial : ServerAddress → Option Error
  LookupVolume : ServerAddress → List String → Except Error LookupVolumeResponse

/-- The outcome of `LookupFileIdWithFallback`: the client afterwards, the two results,
and the `LookupVolume` calls that were issued (master and requested ids). -/
structure LookupResult where
  mc : MasterClient
  fullUrls : List String
  err : Option Error
  rpcs : List (ServerAddress × List String)

/-- Lines 58-66: the inner loop over the locations of one entry of the response. -/
def registerLocations (fileId : String) (vid : Nat) (locations : List RpcLocation)
    (acc : VidMap × List String) : VidMap × List String :=
  locations.foldl (fun a vidLoc =>
    let loc : Location :=
      { Url := vidLoc.Url, PublicUrl := vidLoc.PublicUrl, DataCenter := "",
        GrpcPort := vidLoc.GrpcPort }
    (a.1.addLocation (uint32 vid) loc, a.2 ++ [fileUrl loc.Url fileId])) acc

/-- Lines 57-67: the loop over the entries of the response. -/
def registerResponse (fileId : String) (resp : LookupVolumeResponse)
    (acc : VidMap × List String) : VidMap × List String :=
  resp.VolumeIdLocations.foldl (fun a entry => registerLocations fileId entry.1 entry.2 a) acc

/-- The method `LookupFileIdWithFallback` (lines 45-72). -/
def LookupFileIdWithFallback (mc : MasterClient) (fileId : String) (net : MasterRpc) :
    LookupResult :=
  match mc.vidMap.LookupFileId fileId with
  | some fullUrls => { mc := mc, fullUrls := fullUrls, err := none, rpcs := [] }
  | none =>
    match net.dial mc.currentMaster with
    | some err => { mc := mc, fullUrls := [], err := some err, rpcs := [] }
    | none =>
      match net.LookupVolume mc.currentMaster [fileId] with
      | Except.error err =>
        { mc := mc, fullUrls := [], err := some err, rpcs := [(mc.currentMaster, [fileId])] }
      | Except.ok resp =>
        let out := registerResponse fileId resp (mc.vidMap, [])
        { mc := { mc with vidMap := out.1 }, fullUrls := out.2, err := none,
          rpcs := [(mc.currentMaster, [fileId])] }

/-! ## `tryAllMasters` -/

/-- One call of `tryConnectToMaster` made by the supervisor: the address dialed,
whether it was a hinted leader (line 130) or a configured master (line 128), the
value of `currentMaster` when the call started, the hint it returned (`none` while the
call has not returned), and whether its handshake committed. -/
structure Attempt where
  master : ServerAddress
  hinted : Bool
  currentMaster : ServerAddress
  hint : Option ServerAddress
  committed : Bool
  deriving DecidableEq, Repr

/-- The outcome of a stretch of the supervisor: the client afterwards, the attempts
made in order, whether the stretch ran to its end (otherwise the last attempt is
still in progress), and the sessions not yet used. -/
structure PassResult where
  mc : MasterClient
  attempts : List Attempt
  finished : Bool
  rest : List Session

/-- Lines 128-131: dial `master`, then keep dialing the hinted leader while the last
attempt returned one.  The sessions are consumed one per attempt. -/
def followHints (mc : MasterClient) (master : ServerAddress) (hinted : Bool) :
    List Session → PassResult
  | [] =>
    { mc := mc
      attempts := [{ master := master, hinted := hinted, currentMaster := mc.currentMaster,
                     hint := none, committed := false }]
      finished := false
      rest := [] }
  | s :: env =>
    let r := tryConnectToMaster mc master s
    if r.returned then
      let a : Attempt :=
        { master := master, hinted := hinted, currentMaster := mc.currentMaster,
          hint := some r.nextHintedLeader, committed := r.committed }
      if r.nextHintedLeader ≠ "" then
        let c := followHints r.mc r.nextHintedLeader true env
        { c with attempts := a :: c.attempts }
      else
        { mc := r.mc, attempts := [a], finished := true, rest := env }
    else
      { mc := r.mc
        attempts := [{ master := master, hinted := hinted, currentMaster := mc.currentMaster,
                       hint := none, committed := r.committed }]
        finished := false
        rest := env }

/-- Lines 126-134: the loop over the configured masters, given in iteration order. -/
def tryMasters (mc : MasterClient) : List ServerAddress → List Session → PassResult
  | [], env => { mc := mc, attempts := [], finished := true, rest := env }
  | master :: more, env =>
    let c := followHints mc master false env
    if c.finished then
      let p := tryMasters { c.mc with currentMaster := "" } more c.rest
      { p with attempts := c.attempts ++ p.attempts }
    else c

/-- The method `tryAllMasters` (lines 124-135). -/
def tryAllMasters (mc : MasterClient) (env : List Session) : PassResult :=
  tryMasters mc (mc.masters.map Prod.snd) env

/-- The operations that change a client: a connection attempt, the clearing of
`currentMaster` (line 133), and a lookup with fallback. -/
inductive Step : MasterClient → MasterClient → Prop
  | connect (mc : MasterClient) (master : ServerAddress) (s : Session) :
      Step mc (tryConnectToMaster mc master s).mc
  | clear (mc : MasterClient) : Step mc { mc with currentMaster := "" }
  | lookup (mc : MasterClient) (fileId : String) (net : MasterRpc) :
      Step mc (LookupFileIdWithFallback mc fileId net).mc

/-- How two consecutive attempts of the supervisor are related.  After an attempt that
returned a hinted leader, that leader is dialed next, and `currentMaster` is then the
master of the attempt just made if its handshake committed, and what it was before
otherwise.  After an attempt that returned no hint, a configured master is dialed
next and `currentMaster` is empty. -/
def Attempt.Linked (a b : Attempt) : Prop :=
  ∃ h, a.hint = some h ∧
    ((h ≠ "" ∧ b.hinted = true ∧ b.master = h ∧
        b.currentMaster = (if a.committed then a.master else a.currentMaster)) ∨
     (h = "" ∧ b.hinted = false ∧ b.currentMaster = ""))

/-- The configured masters dialed by a list of attempts (the calls of line 128). -/
def configuredDials (attempts : List Attempt) : List ServerAddress :=
  (attempts.filter (fun a => !a.hinted)).map (fun a => a.master)

/-! ## Sample values for the instantiation lemmas -/

/-- A configured master. -/
def masterA : ServerAddress := "masterA:9333"

/-- Another configured master. -/
def masterB : ServerAddress := "masterB:9333"

/-- A volume server. -/
def loc1 : Location :=
  { Url := "vs1:8080", PublicUrl := "vs1.example.org:8080", DataCenter := "dc1",
    GrpcPort := 18080 }

/-- Another volume server. -/
def loc2 : Location :=
  { Url := "vs2:8080", PublicUrl := "vs2.example.org:8080", DataCenter := "dc2",
    GrpcPort := 18080 }

/-- A message that carries only a `VolumeLocation`: the location, the leader, and the
added and deleted regular volume ids. -/
def volumeMessage (loc : Location) (leader : String) (newVids deletedVids : List Nat) :
    KeepConnectedResponse :=
  { volumeLocation := some
      { Url := loc.Url, PublicUrl := loc.PublicUrl, DataCenter := loc.DataCenter,
        GrpcPort := loc.GrpcPort, Leader := leader, NewVids := newVids,
        DeletedVids := deletedVids, NewEcVids := [], DeletedEcVids := [] }
    clusterNodeUpdate := none }

/-- A session in which dialing, opening the stream and sending succeed. -/
def streamOf (recvs : List (Except Error KeepConnectedResponse)) : Session :=
  { dial := none, keepConnected := none, send := none, recvs := recvs }

/-- A client configured with the masters A and B and the data center `dc1`. -/
def sampleClient : MasterClient :=
  NewMasterClient "" "filer" "filer1:8888" "dc1" [("a", masterA), ("b", masterB)]

/-- A client in a session with master A whose routing table maps volume 7 to `loc1`. -/
def sampleSession : MasterClient :=
  { sampleClient with
    currentMaster := masterA
    vidMap := (newVidMap "").addLocation 7 loc1 }

/-- Dialing A is redirected to B at the handshake; the session with B commits and then
fails with a receive error; the third dial is refused. -/
def redirectThenFailure : List Session :=
  [ streamOf [Except.ok (volumeMessage loc1 masterB [] [])],
    streamOf [Except.ok (volumeMessage loc1 "" [] []), Except.error "EOF"],
    { dial := some "connection refused", keepConnected := none, send := none, recvs := [] } ]

/-- Dialing A is redirected to B at the handshake; the session with B commits and stays
open. -/
def redirectThenOpen : List Session :=
  [ streamOf [Except.ok (volumeMessage loc1 masterB [] [])],
    streamOf [Except.ok (volumeMessage loc1 "" [9] [])] ]

/-- The session with A commits and is later redirected to B by a message of the stream;
B is dialed and has not answered yet. -/
def midStreamRedirectThenDial : List Session :=
  [ streamOf [Except.ok (volumeMessage loc1 "" [] []),
              Except.ok (volumeMessage loc1 masterB [7] [])],
    streamOf [] ]

/-- A master that answers the lookup of any id with volume 7 at the location
`vs9:8080`. -/
def lookupAnswers : MasterRpc :=
  { dial := fun _ => none
    LookupVolume := fun _ _ =>
      Except.ok { VolumeIdLocations :=
        [(7, [{ Url := "vs9:8080", PublicUrl := "vs9.example.org:8080", GrpcPort := 18080 }])] } }

/-- A master that cannot be reached. -/
def lookupUnreachable : MasterRpc :=
  { dial := fun _ => some "connection refused"
    LookupVolume := fun _ _ => Except.error "unused" }

/-! ## Routing-table lemmas -/

theorem mem_insertLocation_self (locs : List Location) (loc : Location) :
    loc ∈ insertLocation locs loc := by
  unfold insertLocation
  split
  · assumption
  · simp

theorem mem_insertLocation_of_mem {locs : List Location} {l : Location} (loc : Location)
    (h : l ∈ locs) : l ∈ insertLocation locs loc := by
  unfold insertLocation
  split
  · exact h
  · simp [h]

theorem newVidMap_GetLocations (dc : String) (vid : Nat) :
    (newVidMap dc).GetLocations vid = [] := rfl

theorem LookupFileId_eq_none_of_empty (vm : VidMap) (h : ∀ vid, vm.GetLocations vid = [])
    (fileId : String) : vm.LookupFileId fileId = none := by
  unfold VidMap.LookupFileId
  cases parseVolumeId fileId with
  | none => rfl
  | some vid => simp [h vid]

theorem foldl_addLocation_frame (loc : Location) (vids : List Nat) (vm : VidMap) :
    (vids.foldl (fun m v => m.addLocation v loc) vm).ecVid2Locations = vm.ecVid2Locations ∧
    (vids.foldl (fun m v => m.addLocation v loc) vm).DataCenter = vm.DataCenter ∧
    ∀ vid, vid ∉ vids →
      (vids.foldl (fun m v => m.addLocation v loc) vm).vid2Locations vid = vm.vid2Locations vid := by
  induction vids generalizing vm with
  | nil => simp
  | cons v vs ih =>
    obtain ⟨h1, h2, h3⟩ := ih (vm.addLocation v loc)
    refine ⟨by simpa [VidMap.addLocation] using h1, by simpa [VidMap.addLocation] using h2, ?_⟩
    intro vid hvid
    simp only [List.mem_cons, not_or] at hvid
    simp only [List.foldl_cons]
    rw [h3 vid hvid.2]
    simp [VidMap.addLocation, hvid.1]

theorem foldl_deleteLocation_frame (loc : Location) (vids : List Nat) (vm : VidMap) :
    (vids.foldl (fun m v => m.deleteLocation v loc) vm).ecVid2Locations = vm.ecVid2Locations ∧
    (vids.foldl (fun m v => m.deleteLocation v loc) vm).DataCenter = vm.DataCenter ∧
    ∀ vid, vid ∉ vids →
      (vids.foldl (fun m v => m.deleteLocation v loc) vm).vid2Locations vid =
        vm.vid2Locations vid := by
  induction vids generalizing vm with
  | nil => simp
  | cons v vs ih =>
    obtain ⟨h1, h2, h3⟩ := ih (vm.deleteLocation v loc)
    refine ⟨by simpa [VidMap.deleteLocation] using h1,
      by simpa [VidMap.deleteLocation] using h2, ?_⟩
    intro vid hvid
    simp only [List.mem_cons, not_or] at hvid
    simp only [List.foldl_cons]
    rw [h3 vid hvid.2]
    simp [VidMap.deleteLocation, hvid.1]

theorem foldl_addEcLocation_frame (loc : Location) (vids : List Nat) (vm : VidMap) :
    (vids.foldl (fun m v => m.addEcLocation v loc) vm).vid2Locations = vm.vid2Locations ∧
    (vids.foldl (fun m v => m.addEcLocation v loc) vm).DataCenter = vm.DataCenter ∧
    ∀ vid, vid ∉ vids →
      (vids.foldl (fun m v => m.addEcLocation v loc) vm).ecVid2Locations vid =
        vm.ecVid2Locations vid := by
  induction vids generalizing vm with
  | nil => simp
  | cons v vs ih =>
    obtain ⟨h1, h2, h3⟩ := ih (vm.addEcLocation v loc)
    refine ⟨by simpa [VidMap.addEcLocation] using h1,
      by simpa [VidMap.addEcLocation] using h2, ?_⟩
    intro vid hvid
    simp only [List.mem_cons, not_or] at hvid
    simp only [List.foldl_cons]
    rw [h3 vid hvid.2]
    simp [VidMap.addEcLocation, hvid.1]

theorem foldl_deleteEcLocation_frame (loc : Location) (vids : List Nat) (vm : VidMap) :
    (vids.foldl (fun m v => m.deleteEcLocation v loc) vm).vid2Locations = vm.vid2Locations ∧
    (vids.foldl (fun m v => m.deleteEcLocation v loc) vm).DataCenter = vm.DataCenter ∧
    ∀ vid, vid ∉ vids →
      (vids.foldl (fun m v => m.deleteEcLocation v loc) vm).ecVid2Locations vid =
        vm.ecVid2Locations vid := by
  induction vids generalizing vm with
  | nil => simp
  | cons v vs ih =>
    obtain ⟨h1, h2, h3⟩ := ih (vm.deleteEcLocation v loc)
    refine ⟨by simpa [VidMap.deleteEcLocation] using h1,
      by simpa [VidMap.deleteEcLocation] using h2, ?_⟩
    intro vid hvid
    simp only [List.mem_cons, not_or] at hvid
    simp only [List.foldl_cons]
    rw [h3 vid hvid.2]
    simp [VidMap.deleteEcLocation, hvid.1]

theorem applyVolumeLocation_DataCenter (vm : VidMap) (vl : VolumeLocation) :
    (applyVolumeLocation vm vl).DataCenter = vm.DataCenter := by
  simp only [applyVolumeLocation]
  rw [(foldl_deleteEcLocation_frame _ _ _).2.1, (foldl_addEcLocation_frame _ _ _).2.1,
    (foldl_deleteLocation_frame _ _ _).2.1, (foldl_addLocation_frame _ _ _).2.1]

theorem notifyPeerUpdate_frame (mc : MasterClient) (resp : KeepConnectedResponse) :
    (notifyPeerUpdate mc resp).vidMap = mc.vidMap ∧
    (notifyPeerUpdate mc resp).currentMaster = mc.currentMaster := by
  unfold notifyPeerUpdate
  cases resp.clusterNodeUpdate with
  | none => exact ⟨rfl, rfl⟩
  | some update =>
    simp only
    split <;> exact ⟨rfl, rfl⟩

theorem processResponse_currentMaster (mc : MasterClient) (resp : KeepConnectedResponse) :
    (processResponse mc resp).currentMaster = mc.currentMaster := by
  unfold processResponse
  cases resp.volumeLocation with
  | none => exact (notifyPeerUpdate_frame mc resp).2
  | some vl => exact (notifyPeerUpdate_frame _ resp).2

theorem processResponse_DataCenter (mc : MasterClient) (resp : KeepConnectedResponse) :
    (processResponse mc resp).vidMap.DataCenter = mc.vidMap.DataCenter := by
  unfold processResponse
  cases resp.volumeLocation with
  | none => rw [(notifyPeerUpdate_frame mc resp).1]
  | some vl =>
    simp only
    rw [(notifyPeerUpdate_frame _ resp).1]
    exact applyVolumeLocation_DataCenter mc.vidMap vl

/-! ## Receive-loop lemmas -/

theorem receiveLoop_append (pre more : List (Except Error KeepConnectedResponse))
    (mc : MasterClient) (h : (receiveLoop mc pre).returned = false) :
    receiveLoop mc (pre ++ more) = receiveLoop (receiveLoop mc pre).mc more := by
  induction pre generalizing mc with
  | nil => rfl
  | cons x xs ih =>
    cases x with
    | error err => simp [receiveLoop] at h
    | ok resp =>
      simp only [receiveLoop, List.cons_append] at h ⊢
      cases hr : midStreamRedirect mc resp with
      | some leader => simp [hr] at h
      | none =>
        simp only [hr] at h ⊢
        exact ih _ h

theorem receiveLoop_DataCenter (recvs : List (Except Error KeepConnectedResponse))
    (mc : MasterClient) :
    (receiveLoop mc recvs).mc.vidMap.DataCenter = mc.vidMap.DataCenter := by
  induction recvs generalizing mc with
  | nil => rfl
  | cons x xs ih =>
    cases x with
    | error err => rfl
    | ok resp =>
      simp only [receiveLoop]
      cases midStreamRedirect mc resp with
      | some leader => rfl
      | none =>
        simp only
        rw [ih, processResponse_DataCenter]

theorem receiveLoop_currentMaster (recvs : List (Except Error KeepConnectedResponse))
    (mc : MasterClient) :
    (receiveLoop mc recvs).mc.currentMaster = mc.currentMaster := by
  induction recvs generalizing mc with
  | nil => rfl
  | cons x xs ih =>
    cases x with
    | error err => rfl
    | ok resp =>
      simp only [receiveLoop]
      cases midStreamRedirect mc resp with
      | some leader => rfl
      | none =>
        simp only
        rw [ih, processResponse_currentMaster]

theorem receiveLoop_committed (recvs : List (Except Error KeepConnectedResponse))
    (mc : MasterClient) : (receiveLoop mc recvs).committed = true := by
  induction recvs generalizing mc with
  | nil => rfl
  | cons x xs ih =>
    cases x with
    | error err => rfl
    | ok resp =>
      simp only [receiveLoop]
      cases midStreamRedirect mc resp with
      | some leader => rfl
      | none => exact ih _

/-! ## The handshake of `tryConnectToMaster` -/

/-- C1: when the first response is not a redirect (no `VolumeLocation`, or an empty
`Leader`, or a `Leader` equal to the dialed master), then whatever the prior client
state, right after the handshake (the call is blocked in the first `Recv` of the loop)
`currentMaster` is the dialed master and the routing table is empty: no volume id has
a location, every lookup misses, and in particular none of the volume ids listed in
that first response is in the table.  With further messages the loop starts from
exactly this state. -/
theorem tryConnectToMaster_commit_resets_table (mc : MasterClient) (master : ServerAddress)
    (s : Session) (resp : KeepConnectedResponse)
    (rest : List (Except Error KeepConnectedResponse))
    (hdial : s.dial = none) (hkeep : s.keepConnected = none) (hsend : s.send = none)
    (hrecv : s.recvs = Except.ok resp :: rest)
    (hleader : resp.volumeLocation = none ∨
      ∃ vl, resp.volumeLocation = some vl ∧ (vl.Leader = "" ∨ vl.Leader = master)) :
    let r := tryConnectToMaster mc master { s with recvs := [Except.ok resp] }
    r.returned = false ∧ r.committed = true ∧ r.gprcErr = none ∧ r.nextHintedLeader = "" ∧
    r.mc.currentMaster = master ∧
    (∀ vid, r.mc.vidMap.GetLocations vid = []) ∧
    (∀ fileId, r.mc.vidMap.LookupFileId fileId = none) ∧
    (∀ vl, resp.volumeLocation = some vl →
      ∀ vid ∈ vl.NewVids ++ vl.DeletedVids ++ vl.NewEcVids ++ vl.DeletedEcVids,
        r.mc.vidMap.vid2Locations vid = [] ∧ r.mc.vidMap.ecVid2Locations vid = []) ∧
    tryConnectToMaster mc master s = receiveLoop r.mc rest := by
  have hnr : handshakeRedirect master resp = none := by
    unfold handshakeRedirect
    rcases hleader with h | ⟨vl, h, h' | h'⟩
    · simp [h]
    · simp [h, h']
    · simp [h, h']
  have hr : tryConnectToMaster mc master { s with recvs := [Except.ok resp] } =
      receiveLoop (commitSession mc master) [] := by
    simp [tryConnectToMaster, hdial, hkeep, hsend, hnr]
  have hs : tryConnectToMaster mc master s = receiveLoop (commitSession mc master) rest := by
    simp [tryConnectToMaster, hdial, hkeep, hsend, hrecv, hnr]
  simp only [hr, hs]
  refine ⟨rfl, rfl, rfl, rfl, rfl, fun _ => rfl, ?_, fun _ _ _ _ => ⟨rfl, rfl⟩, rfl⟩
  exact LookupFileId_eq_none_of_empty _ (fun _ => rfl)

/-- C2: when the first response names a non-empty `Leader` different from the dialed
master, the call returns that leader as `nextHintedLeader` with no error, and the
client (in particular `currentMaster` and the routing table) is exactly what it was
before the call. -/
theorem tryConnectToMaster_handshake_redirect (mc : MasterClient) (master : ServerAddress)
    (s : Session) (resp : KeepConnectedResponse) (vl : VolumeLocation)
    (rest : List (Except Error KeepConnectedResponse))
    (hdial : s.dial = none) (hkeep : s.keepConnected = none) (hsend : s.send = none)
    (hrecv : s.recvs = Except.ok resp :: rest)
    (hvl : resp.volumeLocation = some vl)
    (hleader : vl.Leader ≠ "") (hother : vl.Leader ≠ master) :
    let r := tryConnectToMaster mc master s
    r.returned = true ∧ r.nextHintedLeader = vl.Leader ∧ r.gprcErr = none ∧
    r.committed = false ∧ r.mc = mc ∧
    r.mc.currentMaster = mc.currentMaster ∧ r.mc.vidMap = mc.vidMap := by
  have hred : handshakeRedirect master resp = some vl.Leader := by
    simp [handshakeRedirect, hvl, hleader, Ne.symm hother]
  simp [tryConnectToMaster, hdial, hkeep, hsend, hrecv, hred]

/-! ## The receive loop of `tryConnectToMaster` -/

/-- C3: a session has committed, has received the messages `pre` and is still open.
If the next message names a non-empty `Leader` different from `currentMaster`, the
call returns with `nextHintedLeader` set to that leader and no error, the client (the
regular and the erasure-coded map included) is left as it was before the message,
whatever deltas the message carries, and the messages after it are never received. -/
theorem tryConnectToMaster_midstream_redirect (mc : MasterClient) (master : ServerAddress)
    (first : KeepConnectedResponse) (pre : List (Except Error KeepConnectedResponse))
    (resp : KeepConnectedResponse) (vl : VolumeLocation)
    (rest : List (Except Error KeepConnectedResponse))
    (hopen : (tryConnectToMaster mc master
      { dial := none, keepConnected := none, send := none,
        recvs := Except.ok first :: pre }).returned = false)
    (hvl : resp.volumeLocation = some vl)
    (hleader : vl.Leader ≠ "")
    (hother : vl.Leader ≠ (tryConnectToMaster mc master
      { dial := none, keepConnected := none, send := none,
        recvs := Except.ok first :: pre }).mc.currentMaster) :
    let before := tryConnectToMaster mc master
      { dial := none, keepConnected := none, send := none, recvs := Except.ok first :: pre }
    let r := tryConnectToMaster mc master
      { dial := none, keepConnected := none, send := none,
        recvs := Except.ok first :: (pre ++ Except.ok resp :: rest) }
    before.committed = true ∧ before.mc.currentMaster = master ∧
    r.returned = true ∧ r.nextHintedLeader = vl.Leader ∧ r.gprcErr = none ∧
    r.mc = before.mc ∧
    r.mc.vidMap.vid2Locations = before.mc.vidMap.vid2Locations ∧
    r.mc.vidMap.ecVid2Locations = before.mc.vidMap.ecVid2Locations ∧
    r.unread = rest := by
  cases hh : handshakeRedirect master first with
  | some leader => simp [tryConnectToMaster, hh] at hopen
  | none =>
    have hb : tryConnectToMaster mc master
        { dial := none, keepConnected := none, send := none,
          recvs := Except.ok first :: pre } = receiveLoop (commitSession mc master) pre := by
      simp [tryConnectToMaster, hh]
    have hr : tryConnectToMaster mc master
        { dial := none, keepConnected := none, send := none,
          recvs := Except.ok first :: (pre ++ Except.ok resp :: rest) } =
        receiveLoop (commitSession mc master) (pre ++ Except.ok resp :: rest) := by
      simp [tryConnectToMaster, hh]
    rw [hb] at hopen hother
    simp only [hb, hr]
    rw [receiveLoop_append pre _ _ hopen]
    have hmid : midStreamRedirect (receiveLoop (commitSession mc master) pre).mc resp =
        some vl.Leader := by
      simp [midStreamRedirect, hvl, hleader, Ne.symm hother]
    have hstep : receiveLoop (receiveLoop (commitSession mc master) pre).mc
        (Except.ok resp :: rest) =
        { mc := (receiveLoop (commitSession mc master) pre).mc, nextHintedLeader := vl.Leader,
          gprcErr := none, returned := true, committed := true, unread := rest } := by
      simp only [receiveLoop, hmid]
    rw [hstep]
    refine ⟨receiveLoop_committed _ _, ?_, rfl, rfl, rfl, rfl, rfl, rfl, rfl⟩
    rw [receiveLoop_currentMaster]
    rfl

/-- C4: a message of the receive loop that carries a `VolumeLocation` and is not a
redirect is processed and the loop goes on; the routing table afterwards is the one
obtained with the single location of the message by `addLocation` for each id of
`NewVids` in list order, then `deleteLocation` for each id of `DeletedVids`, then
`addEcLocation` for each id of `NewEcVids`, then `deleteEcLocation` for each id of
`DeletedEcVids`.  The location set of a volume id listed in neither `NewVids` nor
`DeletedVids` is unchanged in the regular map, likewise for the erasure-coded map and
its two lists, and the data-center hint and `currentMaster` are unchanged. -/
theorem receiveLoop_applies_deltas (mc : MasterClient) (resp : KeepConnectedResponse)
    (vl : VolumeLocation) (rest : List (Except Error KeepConnectedResponse))
    (hvl : resp.volumeLocation = some vl)
    (hleader : ¬ (vl.Leader ≠ "" ∧ vl.Leader ≠ mc.currentMaster)) :
    let loc : Location :=
      { Url := vl.Url, PublicUrl := vl.PublicUrl, DataCenter := vl.DataCenter,
        GrpcPort := vl.GrpcPort }
    let after := processResponse mc resp
    receiveLoop mc (Except.ok resp :: rest) = receiveLoop after rest ∧
    after.vidMap =
      vl.DeletedEcVids.foldl (fun m vid => m.deleteEcLocation vid loc)
        (vl.NewEcVids.foldl (fun m vid => m.addEcLocation vid loc)
          (vl.DeletedVids.foldl (fun m vid => m.deleteLocation vid loc)
            (vl.NewVids.foldl (fun m vid => m.addLocation vid loc) mc.vidMap))) ∧
    (∀ vid, vid ∉ vl.NewVids → vid ∉ vl.DeletedVids →
      after.vidMap.vid2Locations vid = mc.vidMap.vid2Locations vid) ∧
    (∀ vid, vid ∉ vl.NewEcVids → vid ∉ vl.DeletedEcVids →
      after.vidMap.ecVid2Locations vid = mc.vidMap.ecVid2Locations vid) ∧
    after.vidMap.DataCenter = mc.vidMap.DataCenter ∧
    after.currentMaster = mc.currentMaster := by
  have hmid : midStreamRedirect mc resp = none := by
    unfold midStreamRedirect
    simp only [hvl]
    rw [if_neg]
    intro h
    exact hleader ⟨h.1, Ne.symm h.2⟩
  have hvm : (processResponse mc resp).vidMap = applyVolumeLocation mc.vidMap vl := by
    unfold processResponse
    simp only [hvl]
    exact (notifyPeerUpdate_frame _ resp).1
  refine ⟨by simp [receiveLoop, hmid], ?_, ?_, ?_, ?_, processResponse_currentMaster mc resp⟩
  · rw [hvm]; rfl
  · intro vid h1 h2
    rw [hvm]
    simp only [applyVolumeLocation]
    rw [(foldl_deleteEcLocation_frame _ _ _).1, (foldl_addEcLocation_frame _ _ _).1,
      (foldl_deleteLocation_frame _ _ _).2.2 vid h2, (foldl_addLocation_frame _ _ _).2.2 vid h1]
  · intro vid h1 h2
    rw [hvm]
    simp only [applyVolumeLocation]
    rw [(foldl_deleteEcLocation_frame _ _ _).2.2 vid h2,
      (foldl_addEcLocation_frame _ _ _).2.2 vid h1,
      (foldl_deleteLocation_frame _ _ _).1, (foldl_addLocation_frame _ _ _).1]
  · rw [hvm]; exact applyVolumeLocation_DataCenter _ _

/-! ## `LookupFileIdWithFallback` -/

theorem addLocation_mem (vm : VidMap) (vid : Nat) (loc : Location) :
    loc ∈ (vm.addLocation vid loc).vid2Locations vid := by
  simp [VidMap.addLocation, mem_insertLocation_self]

theorem addLocation_mono (vm : VidMap) (vid : Nat) (loc : Location) {v : Nat} {l : Location}
    (h : l ∈ vm.vid2Locations v) : l ∈ (vm.addLocation vid loc).vid2Locations v := by
  simp only [VidMap.addLocation]
  split
  · next hv => subst hv; exact mem_insertLocation_of_mem loc h
  · exact h

theorem registerLocations_spec (fileId : String) (vid : Nat) (locations : List RpcLocation)
    (acc : VidMap × List String) :
    (registerLocations fileId vid locations acc).2 =
      acc.2 ++ locations.map (fun l => fileUrl l.Url fileId) ∧
    (registerLocations fileId vid locations acc).1.ecVid2Locations = acc.1.ecVid2Locations ∧
    (registerLocations fileId vid locations acc).1.DataCenter = acc.1.DataCenter ∧
    (∀ v l, l ∈ acc.1.vid2Locations v →
      l ∈ (registerLocations fileId vid locations acc).1.vid2Locations v) ∧
    (∀ l ∈ locations,
      ({ Url := l.Url, PublicUrl := l.PublicUrl, DataCenter := "", GrpcPort := l.GrpcPort } :
        Location) ∈ (registerLocations fileId vid locations acc).1.vid2Locations (uint32 vid)) := by
  induction locations generalizing acc with
  | nil => simp [registerLocations]
  | cons x xs ih =>
    have h := ih (acc.1.addLocation (uint32 vid)
      { Url := x.Url, PublicUrl := x.PublicUrl, DataCenter := "", GrpcPort := x.GrpcPort },
      acc.2 ++ [fileUrl x.Url fileId])
    simp only [registerLocations, List.foldl_cons] at h ⊢
    obtain ⟨h1, h2, h3, h4, h5⟩ := h
    refine ⟨by simp [h1], by rw [h2]; rfl, by rw [h3]; rfl, ?_, ?_⟩
    · intro v l hl
      exact h4 v l (addLocation_mono _ _ _ hl)
    · intro l hl
      rcases List.mem_cons.1 hl with rfl | hl
      · exact h4 _ _ (addLocation_mem _ _ _)
      · exact h5 l hl

theorem registerResponse_spec (fileId : String) (entries : List (Nat × List RpcLocation))
    (acc : VidMap × List String) :
    (registerResponse fileId { VolumeIdLocations := entries } acc).2 =
      acc.2 ++ (entries.map (fun e => e.2.map (fun l => fileUrl l.Url fileId))).flatten ∧
    (registerResponse fileId { VolumeIdLocations := entries } acc).1.ecVid2Locations =
      acc.1.ecVid2Locations ∧
    (registerResponse fileId { VolumeIdLocations := entries } acc).1.DataCenter =
      acc.1.DataCenter ∧
    (∀ v l, l ∈ acc.1.vid2Locations v →
      l ∈ (registerResponse fileId { VolumeIdLocations := entries } acc).1.vid2Locations v) ∧
    (∀ e ∈ entries, ∀ l ∈ e.2,
      ({ Url := l.Url, PublicUrl := l.PublicUrl, DataCenter := "", GrpcPort := l.GrpcPort } :
        Location) ∈
        (registerResponse fileId { VolumeIdLocations := entries } acc).1.vid2Locations
          (uint32 e.1)) := by
  induction entries generalizing acc with
  | nil => simp [registerResponse]
  | cons x xs ih =>
    have h := ih (registerLocations fileId x.1 x.2 acc)
    obtain ⟨g1, g2, g3, g4, g5⟩ := registerLocations_spec fileId x.1 x.2 acc
    simp only [registerResponse, List.foldl_cons] at h ⊢
    obtain ⟨h1, h2, h3, h4, h5⟩ := h
    refine ⟨by simp [h1, g1], by rw [h2, g2], by rw [h3, g3], ?_, ?_⟩
    · intro v l hl
      exact h4 v l (g4 v l hl)
    · intro e he l hl
      rcases List.mem_cons.1 he with rfl | he
      · exact h4 _ _ (g5 l hl)
      · exact h5 e he l hl

/-- C5: when the routing-table lookup of a file id fails and the fallback call
succeeds, exactly one `LookupVolume` call is issued (to `currentMaster`, for that file
id), no error is returned, the URLs returned are one `"http://" + Url + "/" + fileId`
per location of the response, in response order, and on return every location of the
response is registered in the regular map under the 32-bit value of its volume id,
which is the volume id itself for the 32-bit ids the routing table is keyed by. -/
theorem LookupFileIdWithFallback_miss_then_rpc (mc : MasterClient) (fileId : String)
    (net : MasterRpc) (resp : LookupVolumeResponse)
    (hmiss : mc.vidMap.LookupFileId fileId = none)
    (hdial : net.dial mc.currentMaster = none)
    (hrpc : net.LookupVolume mc.currentMaster [fileId] = Except.ok resp) :
    let r := LookupFileIdWithFallback mc fileId net
    r.rpcs = [(mc.currentMaster, [fileId])] ∧ r.err = none ∧
    r.fullUrls =
      (resp.VolumeIdLocations.map (fun e => e.2.map (fun l => "http://" ++ l.Url ++ "/" ++ fileId))).flatten ∧
    (∀ e ∈ resp.VolumeIdLocations, ∀ l ∈ e.2,
      (({ Url := l.Url, PublicUrl := l.PublicUrl, DataCenter := "", GrpcPort := l.GrpcPort } :
        Location) ∈ r.mc.vidMap.vid2Locations (uint32 e.1)) ∧
      (e.1 < 2 ^ 32 →
        ({ Url := l.Url, PublicUrl := l.PublicUrl, DataCenter := "", GrpcPort := l.GrpcPort } :
          Location) ∈ r.mc.vidMap.vid2Locations e.1)) ∧
    (∀ v l, l ∈ mc.vidMap.vid2Locations v → l ∈ r.mc.vidMap.vid2Locations v) ∧
    r.mc.currentMaster = mc.currentMaster := by
  obtain ⟨h1, -, -, h4, h5⟩ := registerResponse_spec fileId resp.VolumeIdLocations (mc.vidMap, [])
  have hr : LookupFileIdWithFallback mc fileId net =
      { mc := { mc with vidMap := (registerResponse fileId resp (mc.vidMap, [])).1 },
        fullUrls := (registerResponse fileId resp (mc.vidMap, [])).2, err := none,
        rpcs := [(mc.currentMaster, [fileId])] } := by
    simp [LookupFileIdWithFallback, hmiss, hdial, hrpc]
  rw [hr]
  refine ⟨rfl, rfl, ?_, ?_, h4, rfl⟩
  · simpa [fileUrl] using h1
  · intro e he l hl
    refine ⟨h5 e he l hl, fun hlt => ?_⟩
    have := h5 e he l hl
    rwa [uint32, Nat.mod_eq_of_lt hlt] at this

/-- C6: when the routing-table lookup of a file id fails and the fallback fails, either
because the master cannot be reached or because `LookupVolume` returns an error, that
error is returned together with an empty URL list, and the client (the routing table
included) is unchanged. -/
theorem LookupFileIdWithFallback_rpc_failure (mc : MasterClient) (fileId : String)
    (net : MasterRpc) (e : Error)
    (hmiss : mc.vidMap.LookupFileId fileId = none)
    (hfail : net.dial mc.currentMaster = some e ∨
      (net.dial mc.currentMaster = none ∧
        net.LookupVolume mc.currentMaster [fileId] = Except.error e)) :
    let r := LookupFileIdWithFallback mc fileId net
    r.err = some e ∧ r.fullUrls = [] ∧ r.mc = mc ∧ r.mc.vidMap = mc.vidMap := by
  rcases hfail with h | ⟨h, h'⟩
  · simp [LookupFileIdWithFallback, hmiss, h]
  · simp [LookupFileIdWithFallback, hmiss, h, h']

/-- C7: when the routing-table lookup of a file id succeeds, `LookupFileIdWithFallback`
returns exactly that URL list with no error, issues no call to the master, and leaves
the client (the routing table included) unchanged. -/
theorem LookupFileIdWithFallback_hit (mc : MasterClient) (fileId : String) (net : MasterRpc)
    (urls : List String) (hhit : mc.vidMap.LookupFileId fileId = some urls) :
    let r := LookupFileIdWithFallback mc fileId net
    r.fullUrls = urls ∧ r.err = none ∧ r.rpcs = [] ∧ r.mc = mc ∧ r.mc.vidMap = mc.vidMap := by
  simp [LookupFileIdWithFallback, hhit]

/-! ## Supervisor lemmas -/

theorem tryConnectToMaster_currentMaster (mc : MasterClient) (master : ServerAddress)
    (s : Session) :
    (tryConnectToMaster mc master s).mc.currentMaster =
      if (tryConnectToMaster mc master s).committed then master else mc.currentMaster := by
  unfold tryConnectToMaster
  cases s.dial with
  | some e => simp
  | none =>
    cases s.keepConnected with
    | some e => simp
    | none =>
      cases s.send with
      | some e => simp
      | none =>
        cases s.recvs with
        | nil => simp
        | cons x rest =>
          cases x with
          | error e => simp
          | ok resp =>
            cases hh : handshakeRedirect master resp with
            | some leader => simp [hh]
            | none =>
              simp only [hh, receiveLoop_committed, receiveLoop_currentMaster, if_true]
              rfl

theorem tryConnectToMaster_DataCenter (mc : MasterClient) (master : ServerAddress)
    (s : Session) :
    (tryConnectToMaster mc master s).mc.vidMap.DataCenter =
      if (tryConnectToMaster mc master s).committed then "" else mc.vidMap.DataCenter := by
  unfold tryConnectToMaster
  cases s.dial with
  | some e => simp
  | none =>
    cases s.keepConnected with
    | some e => simp
    | none =>
      cases s.send with
      | some e => simp
      | none =>
        cases s.recvs with
        | nil => simp
        | cons x rest =>
          cases x with
          | error e => simp
          | ok resp =>
            cases hh : handshakeRedirect master resp with
            | some leader => simp [hh]
            | none =>
              simp only [hh, receiveLoop_committed, receiveLoop_DataCenter, if_true]
              rfl

theorem followHints_spec (env : List Session) (mc : MasterClient) (master : ServerAddress)
    (hinted : Bool) :
    ∃ a tl, (followHints mc master hinted env).attempts = a :: tl ∧
      a.master = master ∧ a.hinted = hinted ∧ a.currentMaster = mc.currentMaster ∧
      (∀ b ∈ tl, b.hinted = true) ∧
      List.Chain' Attempt.Linked (a :: tl) ∧
      ((followHints mc master hinted env).finished = true →
        ∃ z, (a :: tl).getLast? = some z ∧ z.hint = some "") ∧
      ((followHints mc master hinted env).finished = false →
        ∃ z, (a :: tl).getLast? = some z ∧ z.hint = none ∧
          (followHints mc master hinted env).mc.currentMaster =
            (if z.committed then z.master else z.currentMaster)) := by
  induction env generalizing mc master hinted with
  | nil =>
    refine ⟨_, [], rfl, rfl, rfl, rfl, by simp, by simp, by simp [followHints], ?_⟩
    intro _
    exact ⟨_, rfl, rfl, by simp [followHints]⟩
  | cons s env ih =>
    have hcm := tryConnectToMaster_currentMaster mc master s
    unfold followHints
    by_cases hret : (tryConnectToMaster mc master s).returned = true
    · simp only [hret, if_true]
      by_cases hhint : (tryConnectToMaster mc master s).nextHintedLeader ≠ ""
      · simp only [hhint, if_true, ne_eq, not_false_eq_true]
        obtain ⟨b, tl, hb, hb1, hb2, hb3, hb4, hb5, hb6, hb7⟩ :=
          ih (tryConnectToMaster mc master s).mc
            (tryConnectToMaster mc master s).nextHintedLeader true
        refine ⟨_, b :: tl, by rw [hb], rfl, rfl, rfl, ?_, ?_, ?_, ?_⟩
        · intro x hx
          rcases List.mem_cons.1 hx with rfl | hx
          · exact hb2
          · exact hb4 x hx
        · refine List.chain'_cons.2 ⟨?_, hb5⟩
          refine ⟨_, rfl, Or.inl ⟨hhint, hb2, hb1, ?_⟩⟩
          rw [hb3, hcm]
        · intro hf
          obtain ⟨z, hz, hz'⟩ := hb6 hf
          exact ⟨z, by rw [List.getLast?_cons_cons]; exact hz, hz'⟩
        · intro hf
          obtain ⟨z, hz, hz', hzc⟩ := hb7 hf
          exact ⟨z, by rw [List.getLast?_cons_cons]; exact hz, hz', hzc⟩
      · have hh : (tryConnectToMaster mc master s).nextHintedLeader = "" := by
          simpa using hhint
        simp only [hh, ne_eq, not_true_eq_false, if_false]
        refine ⟨_, [], rfl, rfl, rfl, rfl, by simp, by simp, ?_, by simp⟩
        intro _
        exact ⟨_, rfl, rfl⟩
    · have hret' : (tryConnectToMaster mc master s).returned = false := by
        simpa using hret
      simp only [hret', Bool.false_eq_true, if_false]
      refine ⟨_, [], rfl, rfl, rfl, rfl, by simp, by simp, by simp, ?_⟩
      intro _
      exact ⟨_, rfl, rfl, hcm⟩

theorem configuredDials_append (l₁ l₂ : List Attempt) :
    configuredDials (l₁ ++ l₂) = configuredDials l₁ ++ configuredDials l₂ := by
  simp [configuredDials]

theorem configuredDials_of_hinted (tl : List Attempt) (h : ∀ b ∈ tl, b.hinted = true) :
    configuredDials tl = [] := by
  unfold configuredDials
  rw [List.filter_eq_nil_iff.2]
  · rfl
  · intro a ha
    simp [h a ha]

theorem followHints_configuredDials (env : List Session) (mc : MasterClient)
    (master : ServerAddress) :
    configuredDials (followHints mc master false env).attempts = [master] := by
  obtain ⟨a, tl, h, h1, h2, -, h4, -⟩ := followHints_spec env mc master false
  rw [h]
  have : configuredDials (a :: tl) = configuredDials [a] ++ configuredDials tl :=
    configuredDials_append [a] tl
  rw [this, configuredDials_of_hinted tl h4]
  simp [configuredDials, h1, h2]

theorem tryMasters_spec (ms : List ServerAddress) (mc : MasterClient) (env : List Session) :
    List.Chain' Attempt.Linked (tryMasters mc ms env).attempts ∧
    (∀ a ∈ (tryMasters mc ms env).attempts.head?,
      a.hinted = false ∧ a.currentMaster = mc.currentMaster) ∧
    (∀ a ∈ (tryMasters mc ms env).attempts, a.hinted = false →
      a.currentMaster = mc.currentMaster ∨ a.currentMaster = "") ∧
    configuredDials (tryMasters mc ms env).attempts <+: ms ∧
    ((tryMasters mc ms env).finished = true →
      configuredDials (tryMasters mc ms env).attempts = ms ∧
      (∀ z ∈ (tryMasters mc ms env).attempts.getLast?, z.hint = some "") ∧
      (ms ≠ [] → (tryMasters mc ms env).mc.currentMaster = "")) ∧
    ((tryMasters mc ms env).finished = false →
      ∃ z, (tryMasters mc ms env).attempts.getLast? = some z ∧ z.hint = none ∧
        (tryMasters mc ms env).mc.currentMaster =
          (if z.committed then z.master else z.currentMaster)) := by
  induction ms generalizing mc env with
  | nil =>
    refine ⟨by simp [tryMasters], by simp [tryMasters], by simp [tryMasters],
      by simp [tryMasters, configuredDials], ?_, by simp [tryMasters]⟩
    intro _
    simp [tryMasters, configuredDials]
  | cons m more ih =>
    obtain ⟨a, tl, hc, hc1, hc2, hc3, hc4, hc5, hc6, hc7⟩ := followHints_spec env mc m false
    have hcd := followHints_configuredDials env mc m
    unfold tryMasters
    by_cases hfin : (followHints mc m false env).finished = true
    · simp only [hfin, if_true]
      obtain ⟨i1, i2, i3, i4, i5, i6⟩ :=
        ih { (followHints mc m false env).mc with currentMaster := "" }
          (followHints mc m false env).rest
      obtain ⟨z, hz, hz'⟩ := hc6 hfin
      refine ⟨?_, ?_, ?_, ?_, ?_, ?_⟩
      · rw [List.chain'_append]
        refine ⟨by rw [hc]; exact hc5, i1, ?_⟩
        intro x hx y hy
        rw [hc, hz] at hx
        cases Option.mem_some_iff.1 hx
        obtain ⟨hy1, hy2⟩ := i2 y hy
        exact ⟨"", hz', Or.inr ⟨rfl, hy1, hy2⟩⟩
      · intro x hx
        rw [hc] at hx
        simp only [List.cons_append, List.head?_cons] at hx
        cases Option.mem_some_iff.1 hx
        exact ⟨hc2, hc3⟩
      · intro x hx hxh
        rcases List.mem_append.1 hx with hx | hx
        · rw [hc] at hx
          rcases List.mem_cons.1 hx with rfl | hx
          · exact Or.inl hc3
          · rw [hc4 x hx] at hxh
            cases hxh
        · rcases i3 x hx hxh with h | h
          · exact Or.inr h
          · exact Or.inr h
      · rw [configuredDials_append, hcd]
        exact List.prefix_cons_inj m |>.2 i4
      · intro hf
        obtain ⟨j1, j2, j3⟩ := i5 hf
        refine ⟨by rw [configuredDials_append, hcd, j1]; rfl, ?_, ?_⟩
        · intro y hy
          rw [List.getLast?_append] at hy
          cases hl : (tryMasters { (followHints mc m false env).mc with currentMaster := "" }
            more (followHints mc m false env).rest).attempts.getLast? with
          | none =>
            rw [hl, hc, hz] at hy
            have hy' : some z = some y := hy
            cases hy'
            exact hz'
          | some w =>
            rw [hl] at hy
            have hy' : some w = some y := hy
            cases hy'
            exact j2 _ hl
        · intro _
          cases more with
          | nil => rfl
          | cons m2 more2 => exact j3 (by simp)
      · intro hf
        obtain ⟨w, hw, hw1, hw2⟩ := i6 hf
        refine ⟨w, ?_, hw1, hw2⟩
        rw [List.getLast?_append, hw]
        rfl
    · have hfin' : (followHints mc m false env).finished = false := by simpa using hfin
      simp only [hfin', Bool.false_eq_true, if_false]
      refine ⟨by rw [hc]; exact hc5, ?_, ?_, ?_, by simp [hfin'], ?_⟩
      · intro x hx
        rw [hc] at hx
        simp only [List.head?_cons] at hx
        cases Option.mem_some_iff.1 hx
        exact ⟨hc2, hc3⟩
      · intro x hx hxh
        rw [hc] at hx
        rcases List.mem_cons.1 hx with rfl | hx
        · exact Or.inl hc3
        · rw [hc4 x hx] at hxh
          cases hxh
      · rw [hcd]
        exact (List.prefix_cons_inj m).2 List.nil_prefix
      · intro _
        obtain ⟨w, hw, hw1, hw2⟩ := hc7 hfin'
        exact ⟨w, by rw [hc]; exact hw, hw1, hw2⟩

theorem linked_of_chain {l pre post : List Attempt} {a b : Attempt}
    (h : List.Chain' Attempt.Linked l) (hl : l = pre ++ a :: b :: post) : Attempt.Linked a b := by
  subst hl
  exact (List.chain'_append_cons_cons.1 h).2.1

theorem followHints_steps (env : List Session) (mc : MasterClient) (master : ServerAddress)
    (hinted : Bool) : Relation.ReflTransGen Step mc (followHints mc master hinted env).mc := by
  induction env generalizing mc master hinted with
  | nil => exact Relation.ReflTransGen.refl
  | cons s env ih =>
    unfold followHints
    have hstep : Step mc (tryConnectToMaster mc master s).mc := Step.connect mc master s
    by_cases hret : (tryConnectToMaster mc master s).returned = true
    · simp only [hret, if_true]
      by_cases hhint : (tryConnectToMaster mc master s).nextHintedLeader ≠ ""
      · simp only [hhint, if_true, ne_eq, not_false_eq_true]
        exact Relation.ReflTransGen.head hstep (ih _ _ _)
      · have hh : (tryConnectToMaster mc master s).nextHintedLeader = "" := by
          simpa using hhint
        simp only [hh, ne_eq, not_true_eq_false, if_false]
        exact Relation.ReflTransGen.single hstep
    · have hret' : (tryConnectToMaster mc master s).returned = false := by
        simpa using hret
      simp only [hret', Bool.false_eq_true, if_false]
      exact Relation.ReflTransGen.single hstep

theorem tryMasters_steps (ms : List ServerAddress) (mc : MasterClient) (env : List Session) :
    Relation.ReflTransGen Step mc (tryMasters mc ms env).mc := by
  induction ms generalizing mc env with
  | nil => exact Relation.ReflTransGen.refl
  | cons m more ih =>
    unfold tryMasters
    by_cases hfin : (followHints mc m false env).finished = true
    · simp only [hfin, if_true]
      exact (followHints_steps env mc m false).trans
        (Relation.ReflTransGen.head (Step.clear _) (ih _ _))
    · have hfin' : (followHints mc m false env).finished = false := by simpa using hfin
      simp only [hfin', Bool.false_eq_true, if_false]
      exact followHints_steps env mc m false

theorem step_DataCenter {mc mc' : MasterClient} (h : Step mc mc')
    (hdc : mc.vidMap.DataCenter = "") : mc'.vidMap.DataCenter = "" := by
  cases h with
  | connect master s =>
    rw [tryConnectToMaster_DataCenter]
    split
    · rfl
    · exact hdc
  | clear => exact hdc
  | lookup fileId net =>
    unfold LookupFileIdWithFallback
    cases mc.vidMap.LookupFileId fileId with
    | some urls => exact hdc
    | none =>
      simp only
      cases net.dial mc.currentMaster with
      | some e => exact hdc
      | none =>
        simp only
        cases net.LookupVolume mc.currentMaster [fileId] with
        | error e => exact hdc
        | ok resp =>
          simp only
          rw [(registerResponse_spec fileId resp.VolumeIdLocations (mc.vidMap, [])).2.2.1]
          exact hdc

theorem steps_DataCenter {mc mc' : MasterClient} (h : Relation.ReflTransGen Step mc mc')
    (hdc : mc.vidMap.DataCenter = "") : mc'.vidMap.DataCenter = "" := by
  induction h with
  | refl => exact hdc
  | tail _ hstep ih => exact step_DataCenter hstep ih

theorem orderLocations_no_hint (vm : VidMap) (hdc : vm.DataCenter = "")
    (locs : List Location) : vm.orderLocations locs = locs := by
  simp [VidMap.orderLocations, hdc]

/-! ## Instances of the handshake and receive-loop theorems -/

/-- C1 at a sample input: the client is in a session with A and knows volume 7; it dials
B, whose first response has an empty leader and lists volume 7.  Afterwards
`currentMaster` is B and volume 7 has no location. -/
theorem tryConnectToMaster_commit_resets_table_sample :
    sampleSession.currentMaster = masterA ∧
    sampleSession.vidMap.vid2Locations 7 = [loc1] ∧
    (tryConnectToMaster sampleSession masterB
      (streamOf [Except.ok (volumeMessage loc2 "" [7] [])])).mc.currentMaster = masterB ∧
    (tryConnectToMaster sampleSession masterB
      (streamOf [Except.ok (volumeMessage loc2 "" [7] [])])).mc.vidMap.GetLocations 7 = [] ∧
    (tryConnectToMaster sampleSession masterB
      (streamOf [Except.ok (volumeMessage loc2 "" [7] [])])).mc.vidMap.LookupFileId "7,abc" =
        none := by
  have h := tryConnectToMaster_commit_resets_table sampleSession masterB
    (streamOf [Except.ok (volumeMessage loc2 "" [7] [])]) (volumeMessage loc2 "" [7] []) []
    rfl rfl rfl rfl (Or.inr ⟨_, rfl, Or.inl rfl⟩)
  exact ⟨rfl, by decide, h.2.2.2.2.1, h.2.2.2.2.2.1 7, h.2.2.2.2.2.2.1 "7,abc"⟩

/-- C2 at a sample input: the client is in a session with A and knows volume 7; it dials
B, whose first response names A as leader.  The call returns the hint A, and
`currentMaster` and the location set of volume 7 are what they were. -/
theorem tryConnectToMaster_handshake_redirect_sample :
    (tryConnectToMaster sampleSession masterB
      (streamOf [Except.ok (volumeMessage loc2 masterA [7] [])])).nextHintedLeader = masterA ∧
    (tryConnectToMaster sampleSession masterB
      (streamOf [Except.ok (volumeMessage loc2 masterA [7] [])])).gprcErr = none ∧
    (tryConnectToMaster sampleSession masterB
      (streamOf [Except.ok (volumeMessage loc2 masterA [7] [])])).mc.currentMaster = masterA ∧
    (tryConnectToMaster sampleSession masterB
      (streamOf [Except.ok (volumeMessage loc2 masterA [7] [])])).mc.vidMap.vid2Locations 7 =
        [loc1] := by
  have h := tryConnectToMaster_handshake_redirect sampleSession masterB
    (streamOf [Except.ok (volumeMessage loc2 masterA [7] [])]) (volumeMessage loc2 masterA [7] [])
    _ [] rfl rfl rfl rfl rfl (by decide) (by decide)
  refine ⟨h.2.1, h.2.2.1, h.2.2.2.2.2.1, ?_⟩
  rw [h.2.2.2.2.2.2]
  decide

/-- C3 at a sample input: a session with A has added volume 7 at `loc1`; the next message
names B as leader and carries deltas for volumes 8 and 7.  The call returns the hint B,
volume 7 still maps to `loc1`, volume 8 is unknown, and the message after the redirect
is never received. -/
theorem tryConnectToMaster_midstream_redirect_sample :
    (tryConnectToMaster sampleClient masterA
      (streamOf [Except.ok (volumeMessage loc1 "" [] []),
                 Except.ok (volumeMessage loc1 "" [7] []),
                 Except.ok (volumeMessage loc2 masterB [8] [7]),
                 Except.ok (volumeMessage loc2 "" [9] [])])).nextHintedLeader = masterB ∧
    (tryConnectToMaster sampleClient masterA
      (streamOf [Except.ok (volumeMessage loc1 "" [] []),
                 Except.ok (volumeMessage loc1 "" [7] []),
                 Except.ok (volumeMessage loc2 masterB [8] [7]),
                 Except.ok (volumeMessage loc2 "" [9] [])])).unread =
        [Except.ok (volumeMessage loc2 "" [9] [])] ∧
    (tryConnectToMaster sampleClient masterA
      (streamOf [Except.ok (volumeMessage loc1 "" [] []),
                 Except.ok (volumeMessage loc1 "" [7] []),
                 Except.ok (volumeMessage loc2 masterB [8] [7]),
                 Except.ok (volumeMessage loc2 "" [9] [])])).mc.vidMap.vid2Locations =
      (tryConnectToMaster sampleClient masterA
        (streamOf [Except.ok (volumeMessage loc1 "" [] []),
                   Except.ok (volumeMessage loc1 "" [7] [])])).mc.vidMap.vid2Locations ∧
    (tryConnectToMaster sampleClient masterA
      (streamOf [Except.ok (volumeMessage loc1 "" [] []),
                 Except.ok (volumeMessage loc1 "" [7] [])])).mc.vidMap.vid2Locations 7 =
        [loc1] := by
  have h := tryConnectToMaster_midstream_redirect sampleClient masterA
    (volumeMessage loc1 "" [] []) [Except.ok (volumeMessage loc1 "" [7] [])]
    (volumeMessage loc2 masterB [8] [7]) _ [Except.ok (volumeMessage loc2 "" [9] [])]
    (by decide) rfl (by decide) (by decide)
  exact ⟨h.2.2.2.1, h.2.2.2.2.2.2.2.2, h.2.2.2.2.2.2.1, by decide⟩

/-- C4 at the scenario of the specification: the table maps volume 7 to `loc1`; a message
with `NewVids = [7]` and `loc2` gives 7 -> [loc1, loc2]; a further message with
`DeletedVids = [7]` and `loc1` gives 7 -> [loc2]; no other volume id is touched by the
first message. -/
theorem receiveLoop_applies_deltas_sample :
    sampleSession.vidMap.vid2Locations 7 = [loc1] ∧
    (receiveLoop sampleSession
      [Except.ok (volumeMessage loc2 "" [7] [])]).mc.vidMap.vid2Locations 7 = [loc1, loc2] ∧
    (receiveLoop sampleSession
      [Except.ok (volumeMessage loc2 "" [7] []),
       Except.ok (volumeMessage loc1 "" [] [7])]).mc.vidMap.vid2Locations 7 = [loc2] ∧
    (∀ vid, vid ≠ 7 →
      (processResponse sampleSession (volumeMessage loc2 "" [7] [])).vidMap.vid2Locations vid =
        sampleSession.vidMap.vid2Locations vid) := by
  have h := receiveLoop_applies_deltas sampleSession (volumeMessage loc2 "" [7] []) _
    [Except.ok (volumeMessage loc1 "" [] [7])] rfl (by decide)
  refine ⟨by decide, by decide, ?_, ?_⟩
  · rw [h.1]
    decide
  · intro vid hvid
    exact h.2.2.1 vid (by simpa [volumeMessage] using hvid) (by simp [volumeMessage])

/-! ## Instances of the lookup theorems -/

/-- C5 at the scenario of the specification: the lookup of `7,abc` misses, the master
answers with volume 7 at one location, the result is the single URL of that location
and volume 7 maps to it afterwards. -/
theorem LookupFileIdWithFallback_miss_then_rpc_sample :
    sampleClient.vidMap.LookupFileId "7,abc" = none ∧
    (LookupFileIdWithFallback sampleClient "7,abc" lookupAnswers).rpcs =
      [(sampleClient.currentMaster, ["7,abc"])] ∧
    (LookupFileIdWithFallback sampleClient "7,abc" lookupAnswers).err = none ∧
    (LookupFileIdWithFallback sampleClient "7,abc" lookupAnswers).fullUrls =
      ["http://vs9:8080/7,abc"] ∧
    ({ Url := "vs9:8080", PublicUrl := "vs9.example.org:8080", DataCenter := "",
       GrpcPort := 18080 } : Location) ∈
      (LookupFileIdWithFallback sampleClient "7,abc" lookupAnswers).mc.vidMap.vid2Locations 7 := by
  have h := LookupFileIdWithFallback_miss_then_rpc sampleClient "7,abc" lookupAnswers
    { VolumeIdLocations :=
        [(7, [{ Url := "vs9:8080", PublicUrl := "vs9.example.org:8080", GrpcPort := 18080 }])] }
    (by decide) rfl rfl
  refine ⟨by decide, h.1, h.2.1, ?_, ?_⟩
  · rw [h.2.2.1]
    decide
  · exact (h.2.2.2.1 _ (List.mem_singleton_self _) _ (List.mem_singleton_self _)).2 (by decide)

/-- C6 at a sample input: the lookup of `7,abc` misses and the master cannot be reached;
the error is returned with no URL and volume 7 stays unknown. -/
theorem LookupFileIdWithFallback_rpc_failure_sample :
    sampleClient.vidMap.LookupFileId "7,abc" = none ∧
    (LookupFileIdWithFallback sampleClient "7,abc" lookupUnreachable).err =
      some "connection refused" ∧
    (LookupFileIdWithFallback sampleClient "7,abc" lookupUnreachable).fullUrls = [] ∧
    (LookupFileIdWithFallback sampleClient "7,abc" lookupUnreachable).mc.vidMap =
      sampleClient.vidMap := by
  have h := LookupFileIdWithFallback_rpc_failure sampleClient "7,abc" lookupUnreachable
    "connection refused" (by decide) (Or.inl rfl)
  exact ⟨by decide, h.1, h.2.1, h.2.2.2⟩

/-- C7 at a sample input: volume 7 is known at `loc1`, so the lookup of `7,abc` is
answered from the table, without a call to the master. -/
theorem LookupFileIdWithFallback_hit_sample :
    sampleSession.vidMap.LookupFileId "7,abc" = some ["http://vs1:8080/7,abc"] ∧
    (LookupFileIdWithFallback sampleSession "7,abc" lookupAnswers).fullUrls =
      ["http://vs1:8080/7,abc"] ∧
    (LookupFileIdWithFallback sampleSession "7,abc" lookupAnswers).err = none ∧
    (LookupFileIdWithFallback sampleSession "7,abc" lookupAnswers).rpcs = [] ∧
    (LookupFileIdWithFallback sampleSession "7,abc" lookupAnswers).mc.vidMap =
      sampleSession.vidMap := by
  have h := LookupFileIdWithFallback_hit sampleSession "7,abc" lookupAnswers
    ["http://vs1:8080/7,abc"] (by decide)
  exact ⟨by decide, h.1, h.2.1, h.2.2.1, h.2.2.2.2⟩

/-! ## The supervisor pass `tryAllMasters` -/

/-- C8, as stated, fails: with the masters A and B, dialing A is redirected to B, the
session with B commits and ends with a receive error, so the chain of redirects has
ended; the same pass then dials the remaining configured master B again before it
ends. -/
theorem tryAllMasters_dials_remaining_masters :
    sampleClient.masters.map Prod.snd = [masterA, masterB] ∧
    (tryAllMasters sampleClient redirectThenFailure).finished = true ∧
    (tryAllMasters sampleClient redirectThenFailure).attempts =
      [ { master := masterA, hinted := false, currentMaster := "", hint := some masterB,
          committed := false },
        { master := masterB, hinted := true, currentMaster := "", hint := some "",
          committed := true },
        { master := masterB, hinted := false, currentMaster := "", hint := some "",
          committed := false } ] ∧
    configuredDials (tryAllMasters sampleClient redirectThenFailure).attempts =
      [masterA, masterB] := by
  decide

/-- C8, amended: in one pass of `tryAllMasters`, whatever the attempts yield, an attempt
is followed by another only once it has returned; when it returned a non-empty hinted
leader the very next address dialed is that leader; when it returned no hint the chain
of redirects has ended, `currentMaster` is cleared and the next address dialed is a
configured master.  The last attempt made is either still in progress or returned no
hint, so an attempt that returned a hint is always followed by the dial of that
leader.  The configured masters are dialed in iteration order, and a pass that ends
has dialed every one of them, its last attempt returned no hint, and it leaves
`currentMaster` empty. -/
theorem tryAllMasters_follows_hints_then_next_master (mc : MasterClient) (env : List Session) :
    (∀ pre a b post, (tryAllMasters mc env).attempts = pre ++ a :: b :: post →
      ∃ h, a.hint = some h ∧
        (h ≠ "" → b.hinted = true ∧ b.master = h) ∧
        (h = "" → b.hinted = false ∧ b.currentMaster = "")) ∧
    (∀ z ∈ (tryAllMasters mc env).attempts.getLast?, z.hint = none ∨ z.hint = some "") ∧
    configuredDials (tryAllMasters mc env).attempts <+: mc.masters.map Prod.snd ∧
    ((tryAllMasters mc env).finished = true →
      configuredDials (tryAllMasters mc env).attempts = mc.masters.map Prod.snd ∧
      (∀ z ∈ (tryAllMasters mc env).attempts.getLast?, z.hint = some "") ∧
      (mc.masters ≠ [] → (tryAllMasters mc env).mc.currentMaster = "")) := by
  obtain ⟨h1, -, -, h4, h5, h6⟩ := tryMasters_spec (mc.masters.map Prod.snd) mc env
  refine ⟨?_, ?_, h4, ?_⟩
  · intro pre a b post hl
    obtain ⟨h, hh, hcase⟩ := linked_of_chain h1 hl
    refine ⟨h, hh, ?_, ?_⟩
    · intro hne
      rcases hcase with ⟨-, hb1, hb2, -⟩ | ⟨he, -, -⟩
      · exact ⟨hb1, hb2⟩
      · exact absurd he hne
    · intro he
      rcases hcase with ⟨hne, -, -, -⟩ | ⟨-, hb1, hb2⟩
      · exact absurd he hne
      · exact ⟨hb1, hb2⟩
  · intro z hz
    cases hfin : (tryAllMasters mc env).finished with
    | true => exact Or.inr ((h5 hfin).2.1 z hz)
    | false =>
      obtain ⟨w, hw, hw1, -⟩ := h6 hfin
      have hzw : some w = some z := hw.symm.trans hz
      cases hzw
      exact Or.inl hw1
  · intro hfin
    obtain ⟨j1, j2, j3⟩ := h5 hfin
    refine ⟨j1, j2, fun hne => j3 ?_⟩
    simpa using hne

/-- C8 at the scenario of the specification: masters A and B, dialing A is redirected to
B, dialing B is not redirected.  The addresses dialed are A then B, and while the
session with B is open `currentMaster` is B and the routing table is empty. -/
theorem tryAllMasters_follows_hints_sample :
    (tryAllMasters sampleClient redirectThenOpen).attempts.map (fun a => a.master) =
      [masterA, masterB] ∧
    (tryAllMasters sampleClient redirectThenOpen).finished = false ∧
    (tryAllMasters sampleClient redirectThenOpen).mc.currentMaster = masterB ∧
    (∀ vid, (tryAllMasters sampleClient redirectThenOpen).mc.vidMap.GetLocations vid = []) ∧
    (∃ h, h ≠ "" ∧
      (tryAllMasters sampleClient redirectThenOpen).attempts.map (fun a => a.hint) =
        [some h, none]) := by
  have hl : (tryAllMasters sampleClient redirectThenOpen).attempts =
      [] ++ { master := masterA, hinted := false, currentMaster := "", hint := some masterB,
              committed := false } ::
        { master := masterB, hinted := true, currentMaster := "", hint := none,
          committed := true } :: [] := by decide
  obtain ⟨h, hh, -, -⟩ :=
    (tryAllMasters_follows_hints_then_next_master sampleClient redirectThenOpen).1 _ _ _ _ hl
  refine ⟨by decide, by decide, by decide, fun _ => rfl, h, ?_, ?_⟩
  · cases Option.some.inj hh
    decide
  · cases Option.some.inj hh
    decide

/-- C9, as stated, fails: the session with A commits and is ended by a mid-stream
redirect to B; while B is being dialed, and has not answered, `currentMaster` is still
A although the session with A is over. -/
theorem tryAllMasters_stale_currentMaster :
    sampleClient.currentMaster = "" ∧
    (tryAllMasters sampleClient midStreamRedirectThenDial).attempts =
      [ { master := masterA, hinted := false, currentMaster := "", hint := some masterB,
          committed := true },
        { master := masterB, hinted := true, currentMaster := masterA, hint := none,
          committed := false } ] ∧
    (tryAllMasters sampleClient midStreamRedirectThenDial).mc.currentMaster = masterA ∧
    masterA ≠ "" := by
  decide

/-- C9, amended: in a pass of `tryAllMasters` started with `currentMaster` empty,
`currentMaster` is set only by a committed handshake and is cleared when the chain of
redirects ends, that is when an attempt returns no hint.  So every configured master
is dialed with `currentMaster` empty and a pass that ends leaves it empty.  It is not
cleared when a session ends with a hint: while the hinted leader is dialed,
`currentMaster` is the master of the attempt just made if its handshake had committed
(a mid-stream redirect), and what it was before that attempt otherwise.  While the last
attempt is in progress, `currentMaster` is its master once its handshake has
committed, and what it was when the attempt began before that. -/
theorem tryAllMasters_currentMaster_cleared_after_chain (mc : MasterClient)
    (env : List Session) (hcur : mc.currentMaster = "") :
    (∀ a ∈ (tryAllMasters mc env).attempts, a.hinted = false → a.currentMaster = "") ∧
    (∀ pre a b post, (tryAllMasters mc env).attempts = pre ++ a :: b :: post →
      b.hinted = true →
        b.currentMaster = (if a.committed then a.master else a.currentMaster)) ∧
    ((tryAllMasters mc env).finished = true → (tryAllMasters mc env).mc.currentMaster = "") ∧
    ((tryAllMasters mc env).finished = false →
      ∃ z, (tryAllMasters mc env).attempts.getLast? = some z ∧ z.hint = none ∧
        (tryAllMasters mc env).mc.currentMaster =
          (if z.committed then z.master else z.currentMaster)) := by
  obtain ⟨h1, -, h3, -, h5, h6⟩ := tryMasters_spec (mc.masters.map Prod.snd) mc env
  refine ⟨?_, ?_, ?_, h6⟩
  · intro a ha hh
    rcases h3 a ha hh with h | h
    · rw [h, hcur]
    · exact h
  · intro pre a b post hl hb
    obtain ⟨h, -, hcase⟩ := linked_of_chain h1 hl
    rcases hcase with ⟨-, -, -, hb4⟩ | ⟨-, hb1, -⟩
    · exact hb4
    · rw [hb1] at hb
      cases hb
  · intro hfin
    cases hm : mc.masters.map Prod.snd with
    | nil =>
      unfold tryAllMasters
      rw [hm]
      exact hcur
    | cons m more =>
      apply (h5 hfin).2.2
      rw [hm]
      simp

/-- C9, amended, at a sample input: the session with A is ended by a mid-stream redirect
to B; B is dialed with `currentMaster` still A, the configured master A was dialed
with `currentMaster` empty. -/
theorem tryAllMasters_currentMaster_sample :
    sampleClient.currentMaster = "" ∧
    (tryAllMasters sampleClient midStreamRedirectThenDial).attempts.map
      (fun a => (a.master, a.hinted, a.currentMaster)) =
        [(masterA, false, ""), (masterB, true, masterA)] ∧
    (∀ a ∈ (tryAllMasters sampleClient midStreamRedirectThenDial).attempts,
      a.hinted = false → a.currentMaster = "") := by
  exact ⟨rfl, by decide,
    (tryAllMasters_currentMaster_cleared_after_chain sampleClient midStreamRedirectThenDial
      rfl).1⟩

/-! ## The data-center hint -/

/-- C10: whatever data center is passed to `NewMasterClient`, it is the hint of the
table built there, and an attempt that does not commit leaves the hint as it is; the
table installed by a committed handshake has the empty hint, and so has the table of
every client reached from there by connection attempts, clearings of `currentMaster`,
lookups with fallback and whole supervisor passes: the hint is never restored.  With
the empty hint a lookup orders the locations with no data-center preference, in the
stored order. -/
theorem tryConnectToMaster_commit_drops_dataCenter (filerGroup clientType : String)
    (clientHost : ServerAddress) (clientDataCenter : String)
    (masters : List (String × ServerAddress)) (mc : MasterClient) (master : ServerAddress)
    (s : Session) :
    (NewMasterClient filerGroup clientType clientHost clientDataCenter masters).vidMap.DataCenter =
      clientDataCenter ∧
    ((tryConnectToMaster mc master s).committed = false →
      (tryConnectToMaster mc master s).mc.vidMap.DataCenter = mc.vidMap.DataCenter) ∧
    ((tryConnectToMaster mc master s).committed = true →
      (tryConnectToMaster mc master s).mc.vidMap.DataCenter = "" ∧
      (∀ mc', Relation.ReflTransGen Step (tryConnectToMaster mc master s).mc mc' →
        mc'.vidMap.DataCenter = "" ∧
        (∀ locs, mc'.vidMap.orderLocations locs = locs) ∧
        (∀ fileId vid, parseVolumeId fileId = some vid → mc'.vidMap.GetLocations vid ≠ [] →
          mc'.vidMap.LookupFileId fileId =
            some ((mc'.vidMap.GetLocations vid).map (fun l => fileUrl l.Url fileId)))) ∧
      (∀ env, (tryAllMasters (tryConnectToMaster mc master s).mc env).mc.vidMap.DataCenter =
        "")) := by
  refine ⟨rfl, ?_, ?_⟩
  · intro hc
    rw [tryConnectToMaster_DataCenter, hc]
    rfl
  · intro hc
    have h0 : (tryConnectToMaster mc master s).mc.vidMap.DataCenter = "" := by
      rw [tryConnectToMaster_DataCenter, hc]
      rfl
    refine ⟨h0, ?_, ?_⟩
    · intro mc' hreach
      have hdc := steps_DataCenter hreach h0
      refine ⟨hdc, orderLocations_no_hint _ hdc, ?_⟩
      intro fileId vid hvid hne
      unfold VidMap.LookupFileId
      rw [hvid]
      simp only
      rw [orderLocations_no_hint _ hdc, if_neg]
      simpa using hne
    · intro env
      exact steps_DataCenter (tryMasters_steps _ _ env) h0

/-- C10 at a sample input: the client is built with the data center `dc1`; after the
handshake with A commits, the hint of its routing table is empty. -/
theorem tryConnectToMaster_commit_drops_dataCenter_sample :
    sampleClient.vidMap.DataCenter = "dc1" ∧
    (tryConnectToMaster sampleClient masterA
      (streamOf [Except.ok (volumeMessage loc1 "" [] [])])).committed = true ∧
    (tryConnectToMaster sampleClient masterA
      (streamOf [Except.ok (volumeMessage loc1 "" [] [])])).mc.vidMap.DataCenter = "" := by
  have h := tryConnectToMaster_commit_drops_dataCenter "" "filer" "filer1:8888" "dc1"
    [("a", masterA), ("b", masterB)] sampleClient masterA
    (streamOf [Except.ok (volumeMessage loc1 "" [] [])])
  exact ⟨h.1, by decide, (h.2.2 (by decide)).1⟩

end Wdclient
